import Mathlib

/-!
Verification of the contact-directory core of `team-assistant-bot`.

Shallow embedding of `main.py` (Field classes, `Record`, `AddressBook`,
`get_upcoming_birthdays`, pickle persistence) and of
`src/assistant/address_book.py` (the address handlers).  Python state
mutation is rendered as explicit state passing; Python exceptions as
`Except PyErr`; the process clock (`datetime.now().date()`) as an explicit
`today` parameter; the file system as an association list from path to
stored content.  Strings are Lean `String`s; Python's `str.isdigit` is
modelled on the ASCII digit class (the full Unicode digit classes are out
of scope of the embedding).
-/

namespace AssistantBot

/-! ## Calendar dates (embedding of `datetime.date`) -/

/-- A calendar date, as Python's `datetime.date`: year, month, day. -/
structure Date where
  year : Nat
  month : Nat
  day : Nat
deriving DecidableEq

/-- Gregorian leap-year rule, as used by `datetime.date`. -/
def isLeap (y : Nat) : Bool :=
  y % 4 == 0 && (y % 100 != 0 || y % 400 == 0)

/-- Number of days in a month of a given year. -/
def daysInMonth (y m : Nat) : Nat :=
  if m = 2 then (if isLeap y then 29 else 28)
  else if m = 4 ∨ m = 6 ∨ m = 9 ∨ m = 11 then 30
  else 31

/-- Validity of a date, as checked by the `datetime.date` constructor
(`MINYEAR = 1`, `MAXYEAR = 9999`). -/
def validDate (d : Date) : Bool :=
  1 ≤ d.year && d.year ≤ 9999 && 1 ≤ d.month && d.month ≤ 12 &&
    1 ≤ d.day && d.day ≤ daysInMonth d.year d.month

/-- Strict comparison of dates: Python compares dates lexicographically on
(year, month, day). -/
def dateLtB (a b : Date) : Bool :=
  a.year < b.year ||
    (a.year == b.year && (a.month < b.month ||
      (a.month == b.month && a.day < b.day)))

/-- Non-strict comparison of dates. -/
def dateLeB (a b : Date) : Bool :=
  dateLtB a b || (a.year == b.year && a.month == b.month && a.day == b.day)

/-- The day after a given date (used to embed `timedelta(days=n)` addition). -/
def nextDay (d : Date) : Date :=
  if d.day < daysInMonth d.year d.month then ⟨d.year, d.month, d.day + 1⟩
  else if d.month < 12 then ⟨d.year, d.month + 1, 1⟩
  else ⟨d.year + 1, 1, 1⟩

/-- `d + timedelta(days = n)`. -/
def addDays (d : Date) : Nat → Date
  | 0 => d
  | n + 1 => nextDay (addDays d n)

/-- Days of the Gregorian calendar before January 1 of year `y`. -/
def daysBeforeYear (y : Nat) : Nat :=
  365 * (y - 1) + (y - 1) / 4 - (y - 1) / 100 + (y - 1) / 400

/-- Days of year `y` strictly before month `m`. -/
def daysBeforeMonth (y m : Nat) : Nat :=
  (List.range (m - 1)).foldl (fun acc i => acc + daysInMonth y (i + 1)) 0

/-- Proleptic Gregorian ordinal of a date, as `date.toordinal()`:
0001-01-01 has ordinal 1. -/
def toOrdinal (d : Date) : Nat :=
  daysBeforeYear d.year + daysBeforeMonth d.year d.month + d.day

/-- `date.weekday()`: 0 = Monday … 6 = Sunday.  Ordinal 1 (0001-01-01) was a
Monday. -/
def weekday (d : Date) : Nat :=
  (toOrdinal d + 6) % 7

/-- `date.replace(year = y)`: rebuilds the date with the new year, re-running
the constructor's validity check; raises `ValueError` (here: `none`) when the
month/day is invalid in the new year (Feb 29 in a non-leap year). -/
def replaceYear (d : Date) (y : Nat) : Option Date :=
  let d' : Date := ⟨y, d.month, d.day⟩
  if validDate d' then some d' else none

/-- The decimal digit character for `n < 10`. -/
def digitChar (n : Nat) : Char :=
  Char.ofNat (48 + n)

/-- Zero-padded two-digit rendering, as `strftime` `%d` / `%m` (values here
are always below 100). -/
def pad2 (n : Nat) : String :=
  ⟨[digitChar (n / 10 % 10), digitChar (n % 10)]⟩

/-- Zero-padded four-digit rendering, as `strftime` `%Y` (`date` years are
1..9999). -/
def pad4 (n : Nat) : String :=
  ⟨[digitChar (n / 1000 % 10), digitChar (n / 100 % 10),
    digitChar (n / 10 % 10), digitChar (n % 10)]⟩

/-- `strftime('%Y-%m-%d')`. -/
def fmtYMD (d : Date) : String :=
  pad4 d.year ++ "-" ++ pad2 d.month ++ "-" ++ pad2 d.day

/-- `strftime('%d.%m.%Y')` — `Birthday.date_str`. -/
def dateStr (d : Date) : String :=
  pad2 d.day ++ "." ++ pad2 d.month ++ "." ++ pad4 d.year

/-! ## Python exceptions and the `input_error` decorator -/

/-- The exceptions the program raises and catches. -/
inductive PyErr where
  | valueError (msg : String)
  | keyError
  | indexError
deriving DecidableEq

/-- The `input_error` decorator from `main.py` (and `assistant/handlers.py`):
maps a raised exception to the user-facing message. -/
def input_error : Except PyErr String → String
  | .ok s => s
  | .error .keyError => "Contact not found."
  | .error (.valueError m) => m
  | .error .indexError => "Enter the command followed by necessary arguments."

/-! ## Phone (validated field) -/

/-- `str.isdigit()` on ASCII strings: non-empty and every character a decimal
digit (iterating the characters of the string). -/
def pyIsdigit (s : String) : Bool :=
  s.length != 0 && s.data.all Char.isDigit

/-- A `Phone` field: wraps the validated string value. -/
structure Phone where
  value : String
deriving DecidableEq

/-- `Phone._validate`: `value.isdigit() and len(value) == 10`. -/
def Phone.validate (s : String) : Bool :=
  pyIsdigit s && s.length == 10

/-- The `Phone` constructor: raises `ValueError` unless the value passes
`_validate`. -/
def phoneInit (s : String) : Except PyErr Phone :=
  if Phone.validate s then .ok ⟨s⟩
  else .error (.valueError "Phone number must contain exactly 10 digits.")

/-- `Phone.update_number`: re-validates and replaces the stored value. -/
def Phone.update_number (_p : Phone) (s : String) : Except PyErr Phone :=
  if Phone.validate s then .ok ⟨s⟩
  else .error (.valueError "Phone number must contain exactly 10 digits.")

/-! ## Birthday parsing (embedding of `datetime.strptime(value, "%d.%m.%Y")`)

CPython's `_strptime` compiles the format to a regex: `%d` matches
`3[01]|[12]\d|0[1-9]|[1-9]` (one or two digits, value 1–31, zero-padding
optional), `%m` matches `1[0-2]|0[1-9]|[1-9]`, `%Y` matches exactly four
digits, the dots are literal, and the whole input must be consumed.  Since
none of the field languages contains a dot, acceptance is equivalent to:
split the input at the dots into exactly three dot-free fields and check
each field, then construct the `date` (which re-validates, rejecting e.g.
Feb 30 and year 0000). -/

/-- Numeric value of a digit character. -/
def digitVal (c : Char) : Nat :=
  c.toNat - 48

/-- Numeric value of a digit string (most significant first). -/
def charsToNat (cs : List Char) : Nat :=
  cs.foldl (fun a c => 10 * a + digitVal c) 0

/-- Every character is an ASCII decimal digit. -/
def allDigits (cs : List Char) : Bool :=
  cs.all Char.isDigit

/-- The `%d` field language: one or two digits with value 1–31. -/
def dayField (cs : List Char) : Bool :=
  allDigits cs && (cs.length == 1 || cs.length == 2) &&
    Nat.ble 1 (charsToNat cs) && Nat.ble (charsToNat cs) 31

/-- The `%m` field language: one or two digits with value 1–12. -/
def monthField (cs : List Char) : Bool :=
  allDigits cs && (cs.length == 1 || cs.length == 2) &&
    Nat.ble 1 (charsToNat cs) && Nat.ble (charsToNat cs) 12

/-- The `%Y` field language: exactly four digits. -/
def yearField (cs : List Char) : Bool :=
  allDigits cs && cs.length == 4

/-- Split a character list at the `.` characters. -/
def splitDots : List Char → List (List Char)
  | [] => [[]]
  | c :: cs =>
    if c = '.' then [] :: splitDots cs
    else
      match splitDots cs with
      | [] => [[c]]
      | p :: ps => (c :: p) :: ps

/-- `datetime.strptime(s, "%d.%m.%Y").date()`: parse or fail. -/
def parseDMY (cs : List Char) : Option Date :=
  match splitDots cs with
  | [ds, ms, ys] =>
    if dayField ds && monthField ms && yearField ys then
      let dt : Date := ⟨charsToNat ys, charsToNat ms, charsToNat ds⟩
      if validDate dt then some dt else none
    else none
  | _ => none

/-- The `Birthday` constructor: parses `DD.MM.YYYY` and stores the date, or
raises `ValueError("Invalid date format. Use DD.MM.YYYY")`. -/
def birthdayInit (s : String) : Except PyErr Date :=
  match parseDMY s.data with
  | some d => .ok d
  | none => .error (.valueError "Invalid date format. Use DD.MM.YYYY")

/-! ## Record -/

/-- One contact.  `addresses = none` models the absence of the dynamically
attached `addresses` attribute (it is created only by `add_address`); once
present it is `some` of the list of `Address` values. -/
structure Record where
  name : String
  phones : List Phone
  birthday : Option Date
  addresses : Option (List String)
deriving DecidableEq

/-- `Record.add_phone`: validates and appends. -/
def Record.add_phone (r : Record) (s : String) : Except PyErr Record := do
  let p ← phoneInit s
  return { r with phones := r.phones ++ [p] }

/-- `Record.add_birthday`: raises `ValueError("Birthday already set.")` when a
birthday exists; otherwise validates the string and sets it. -/
def Record.add_birthday (r : Record) (s : String) : Except PyErr Record :=
  if r.birthday.isSome then .error (.valueError "Birthday already set.")
  else do
    let b ← birthdayInit s
    return { r with birthday := some b }

/-! ## AddressBook -/

/-- The `AddressBook` (a `UserDict`): an insertion-ordered mapping from
contact name to `Record`. -/
abbrev AddressBook := List (String × Record)

/-- Write a key: overwrite in place when present, append when absent (dict
update semantics). -/
def setKey : AddressBook → String → Record → AddressBook
  | [], n, r => [(n, r)]
  | (k, v) :: rest, n, r =>
    if k = n then (k, r) :: rest else (k, v) :: setKey rest n r

/-- `AddressBook.find` / `self.data.get(name)`. -/
def bookFind : AddressBook → String → Option Record
  | [], _ => none
  | (k, v) :: rest, n => if k = n then some v else bookFind rest n

/-- `AddressBook.add_record`: keyed by the record's name. -/
def add_record (b : AddressBook) (r : Record) : AddressBook :=
  setKey b r.name r

/-! ## Upcoming birthdays (`AddressBook.get_upcoming_birthdays`) -/

/-- The body of the loop of `get_upcoming_birthdays` for one record: re-anchor
the birthday onto `today`'s year (`date.replace`, which can raise), bump to the
next year when strictly before today (a second `replace`), keep the candidate
when `today <= candidate <= next_week`, shift a weekend candidate forward by
`7 - weekday` days, and format the greeting line.  Returns `ok none` when the
record contributes no line. -/
def processRecord (today nextWeek : Date) (r : Record) :
    Except PyErr (Option String) :=
  match r.birthday with
  | none => .ok none
  | some b =>
    match replaceYear b today.year with
    | none => .error (.valueError "day is out of range for month")
    | some c0 =>
      match (if dateLtB c0 today then replaceYear b (today.year + 1)
             else some c0) with
      | none => .error (.valueError "day is out of range for month")
      | some c =>
        if dateLeB today c && dateLeB c nextWeek then
          let congrDate := if 5 ≤ weekday c then addDays c (7 - weekday c) else c
          .ok (some (fmtYMD congrDate ++ ": " ++ r.name))
        else .ok none

/-- Fold `processRecord` over the records, collecting the greeting lines and
propagating a raised exception. -/
def upcomingAux (today nextWeek : Date) :
    List (String × Record) → Except PyErr (List String)
  | [] => .ok []
  | (_, r) :: rest => do
    let line ← processRecord today nextWeek r
    let tail ← upcomingAux today nextWeek rest
    match line with
    | some s => return s :: tail
    | none => return tail

/-- `AddressBook.get_upcoming_birthdays`, with `datetime.now().date()` passed
explicitly as `today`. -/
def get_upcoming_birthdays (b : AddressBook) (today : Date) :
    Except PyErr (List String) :=
  upcomingAux today (addDays today 7) b

/-! ## Command handlers

Each handler is `input_error`-wrapped: it returns the user-facing message
together with the resulting book.  Python mutations performed before an
exception is raised persist, so the returned book reflects them. -/

/-- The `Name` constructor: raises `ValueError("Invalid name.")` when the
value is falsy (the empty string). -/
def nameInit (s : String) : Except PyErr String :=
  if s = "" then .error (.valueError "Invalid name.") else .ok s

/-- `Record(name)`: validates the name via the `Name` constructor and creates
the record with no phones, no birthday, and no `addresses` attribute. -/
def recordInit (s : String) : Except PyErr Record := do
  let n ← nameInit s
  return ⟨n, [], none, none⟩

/-- `add_contact(args, book)`: creates the record — `Record(name)` validating
the name first, raising before anything is inserted — or finds the existing
one, then — only when `phone` is truthy, i.e. non-empty — validates and
appends the phone.  A failed phone validation is caught by `input_error`
after the insertion already happened. -/
def add_contact (args : List String) (book : AddressBook) :
    String × AddressBook :=
  match args with
  | name :: phone :: _ =>
    match bookFind book name with
    | none =>
      match recordInit name with
      | .error e => (input_error (.error e), book)
      | .ok r =>
        let book1 := add_record book r
        if phone = "" then ("Contact added.", book1)
        else
          match phoneInit phone with
          | .ok p => ("Contact added.", setKey book1 name { r with phones := [p] })
          | .error e => (input_error (.error e), book1)
    | some r =>
      if phone = "" then ("Contact updated.", book)
      else
        match phoneInit phone with
        | .ok p =>
          ("Contact updated.", setKey book name { r with phones := r.phones ++ [p] })
        | .error e => (input_error (.error e), book)
  | [_] => ("not enough values to unpack (expected at least 2, got 1)", book)
  | [] => ("not enough values to unpack (expected at least 2, got 0)", book)

/-- Replace the first address equal to `old` by `new` (the loop of
`change_address` mutates the first matching `Address` object and returns). -/
def replaceFirst : List String → String → String → List String
  | [], _, _ => []
  | a :: rest, old, new =>
    if a = old then new :: rest else a :: replaceFirst rest old new

/-- `change_address(args, book)` from `assistant/address_book.py`: raises
`KeyError` (rendered "Contact not found." by `input_error`) when the record is
missing OR when it has no `addresses` attribute; otherwise replaces the first
matching address, or reports "Old address not found.". -/
def change_address (args : List String) (book : AddressBook) :
    String × AddressBook :=
  match args with
  | name :: old :: new :: _ =>
    match bookFind book name with
    | none => (input_error (.error .keyError), book)
    | some r =>
      match r.addresses with
      | none => (input_error (.error .keyError), book)
      | some addrs =>
        if old ∈ addrs then
          ("Address updated.",
            setKey book name { r with addresses := some (replaceFirst addrs old new) })
        else ("Old address not found.", book)
  | [_, _] => ("not enough values to unpack (expected at least 3, got 2)", book)
  | [_] => ("not enough values to unpack (expected at least 3, got 1)", book)
  | [] => ("not enough values to unpack (expected at least 3, got 0)", book)

/-- `remove_address(args, book)` from `assistant/address_book.py`: raises
`KeyError` when the record is missing OR has no `addresses` attribute;
otherwise filters out every matching address and reports "Address removed."
unconditionally. -/
def remove_address (args : List String) (book : AddressBook) :
    String × AddressBook :=
  match args with
  | name :: addr :: _ =>
    match bookFind book name with
    | none => (input_error (.error .keyError), book)
    | some r =>
      match r.addresses with
      | none => (input_error (.error .keyError), book)
      | some addrs =>
        ("Address removed.",
          setKey book name { r with addresses := some (addrs.filter (fun a => a ≠ addr)) })
  | [_] => ("not enough values to unpack (expected at least 2, got 1)", book)
  | [] => ("not enough values to unpack (expected at least 2, got 0)", book)

/-! ## Persistence (`save_data` / `load_data`)

`pickle.dump` / `pickle.load` serialize the whole `AddressBook` object graph
(including each record's `__dict__`, hence the presence or absence of the
dynamic `addresses` attribute) to a byte stream and reconstruct it exactly.
The stream is modelled as a list of tokens; `encBook` plays `pickle.dump`,
`decBook` plays `pickle.load`.  The file system is an association list from
path to stored stream. -/

/-- One token of the serialized stream. -/
inductive Tok where
  | s (v : String)
  | n (v : Nat)
deriving DecidableEq

/-- Serialize a list of strings: length then elements. -/
def encStrs (l : List String) : List Tok :=
  .n l.length :: l.map .s

/-- Serialize an optional date. -/
def encOptDate : Option Date → List Tok
  | none => [.n 0]
  | some d => [.n 1, .n d.year, .n d.month, .n d.day]

/-- Serialize the optional `addresses` attribute. -/
def encAddrs : Option (List String) → List Tok
  | none => [.n 0]
  | some l => .n 1 :: encStrs l

/-- Serialize one record: name, phone values, birthday, addresses. -/
def encRecord (r : Record) : List Tok :=
  .s r.name :: (encStrs (r.phones.map Phone.value) ++
    encOptDate r.birthday ++ encAddrs r.addresses)

/-- Serialize the book: entry count, then key and record per entry. -/
def encBook (b : AddressBook) : List Tok :=
  .n b.length :: (b.map (fun kv => Tok.s kv.1 :: encRecord kv.2)).flatten

/-- Deserialize `k` strings, returning them and the unconsumed tail. -/
def decStrs : Nat → List Tok → Option (List String × List Tok)
  | 0, ts => some ([], ts)
  | k + 1, .s v :: ts =>
    match decStrs k ts with
    | some (l, rest) => some (v :: l, rest)
    | none => none
  | _ + 1, _ => none

/-- Deserialize an optional date. -/
def decOptDate : List Tok → Option (Option Date × List Tok)
  | .n 0 :: ts => some (none, ts)
  | .n 1 :: .n y :: .n m :: .n d :: ts => some (some ⟨y, m, d⟩, ts)
  | _ => none

/-- Deserialize the optional `addresses` attribute. -/
def decAddrs : List Tok → Option (Option (List String) × List Tok)
  | .n 0 :: ts => some (none, ts)
  | .n 1 :: .n k :: ts =>
    match decStrs k ts with
    | some (l, rest) => some (some l, rest)
    | none => none
  | _ => none

/-- Deserialize one record. -/
def decRecord : List Tok → Option (Record × List Tok)
  | .s name :: .n k :: ts =>
    match decStrs k ts with
    | some (ph, rest1) =>
      match decOptDate rest1 with
      | some (bd, rest2) =>
        match decAddrs rest2 with
        | some (ad, rest3) => some (⟨name, ph.map Phone.mk, bd, ad⟩, rest3)
        | none => none
      | none => none
    | none => none
  | _ => none

/-- Deserialize `k` book entries. -/
def decEntries : Nat → List Tok → Option (AddressBook × List Tok)
  | 0, ts => some ([], ts)
  | k + 1, .s key :: ts =>
    match decRecord ts with
    | some (r, rest) =>
      match decEntries k rest with
      | some (b, rest2) => some ((key, r) :: b, rest2)
      | none => none
    | none => none
  | _ + 1, _ => none

/-- Deserialize a whole book (`pickle.load` reads one object and ignores any
trailing bytes). -/
def decBook : List Tok → Option AddressBook
  | .n k :: ts =>
    match decEntries k ts with
    | some (b, _) => some b
    | none => none
  | _ => none

/-- The file system: path to stored stream. -/
abbrev FileSystem := List (String × List Tok)

/-- Write a file, overwriting any existing one. -/
def fsWrite : FileSystem → String → List Tok → FileSystem
  | [], p, c => [(p, c)]
  | (q, d) :: rest, p, c =>
    if q = p then (q, c) :: rest else (q, d) :: fsWrite rest p c

/-- Read a file; `none` models `FileNotFoundError`. -/
def fsRead : FileSystem → String → Option (List Tok)
  | [], _ => none
  | (q, d) :: rest, p => if q = p then some d else fsRead rest p

/-- `save_data(book, filename)`: open for writing and `pickle.dump`. -/
def save_data (fs : FileSystem) (book : AddressBook) (path : String) :
    FileSystem :=
  fsWrite fs path (encBook book)

/-- `load_data(filename)`: `pickle.load` the file, or return a fresh empty
`AddressBook()` on `FileNotFoundError`; `none` models an unpickling error. -/
def load_data (fs : FileSystem) (path : String) : Option AddressBook :=
  match fsRead fs path with
  | none => some []
  | some ts => decBook ts

/-! ## Spec-side definitions

These restate, in the spec's own words, the quantities the claims describe;
the theorems below relate them to the embedded code. -/

/-- The candidate date as the spec describes it: the birthday's month/day
re-anchored onto `today`'s year, re-anchored onto the next year when that
candidate is strictly before `today`. -/
def anchorCandidate (today b : Date) : Date :=
  let c0 : Date := ⟨today.year, b.month, b.day⟩
  if dateLtB c0 today then ⟨today.year + 1, b.month, b.day⟩ else c0

/-- The weekend shift as the spec describes it: a Saturday candidate moves
forward by 2 days, a Sunday candidate by 1 day, a weekday candidate is
unshifted. -/
def specShift (c : Date) : Date :=
  if weekday c = 5 then addDays c 2
  else if weekday c = 6 then addDays c 1
  else c

/-- The birthday string format as the claim states it: a zero-padded
two-digit day, a dot, a zero-padded two-digit month, a dot, a four-digit
year. -/
def specPaddedDMY (cs : List Char) : Bool :=
  match splitDots cs with
  | [ds, ms, ys] =>
    allDigits ds && ds.length == 2 && allDigits ms && ms.length == 2 &&
      allDigits ys && ys.length == 4
  | _ => false

/-! ## Serialization round-trip lemmas -/

theorem decStrs_enc (l : List String) (rest : List Tok) :
    decStrs l.length (l.map .s ++ rest) = some (l, rest) := by
  induction l with
  | nil => rfl
  | cons a t ih => simp [decStrs, ih]

theorem decOptDate_enc (o : Option Date) (rest : List Tok) :
    decOptDate (encOptDate o ++ rest) = some (o, rest) := by
  cases o with
  | none => rfl
  | some d => rfl

theorem decAddrs_enc (o : Option (List String)) (rest : List Tok) :
    decAddrs (encAddrs o ++ rest) = some (o, rest) := by
  cases o with
  | none => rfl
  | some l => simp [encAddrs, encStrs, decAddrs, decStrs_enc]

theorem decRecord_enc (r : Record) (rest : List Tok) :
    decRecord (encRecord r ++ rest) = some (r, rest) := by
  have hphones : (r.phones.map Phone.value).map Phone.mk = r.phones := by
    rw [List.map_map]
    exact List.map_id'' (fun _ => rfl) r.phones
  have hs := decStrs_enc (r.phones.map Phone.value)
    (encOptDate r.birthday ++ (encAddrs r.addresses ++ rest))
  simp only [List.length_map, List.map_map] at hs
  simp [encRecord, encStrs, decRecord, List.append_assoc, hs,
    decOptDate_enc, decAddrs_enc, hphones]

theorem decEntries_enc (b : AddressBook) (rest : List Tok) :
    decEntries b.length
      ((b.map (fun kv => Tok.s kv.1 :: encRecord kv.2)).flatten ++ rest) =
      some (b, rest) := by
  induction b with
  | nil => rfl
  | cons kv t ih =>
    simp [decEntries, List.append_assoc, decRecord_enc, ih]

theorem decBook_enc (b : AddressBook) : decBook (encBook b) = some b := by
  have h := decEntries_enc b []
  rw [List.append_nil] at h
  simp [encBook, decBook, h]

theorem fsRead_fsWrite (fs : FileSystem) (p : String) (c : List Tok) :
    fsRead (fsWrite fs p c) p = some c := by
  induction fs with
  | nil => simp [fsWrite, fsRead]
  | cons qd rest ih =>
    by_cases h : qd.1 = p
    · simp [fsWrite, fsRead, h]
    · simp [fsWrite, fsRead, h, ih]

/-! ## Claim theorems -/

/-- C1: saving a non-empty `AddressBook` and loading it back from the same
path yields the same book — same names, and for each name the same phone
sequence, optional birthday and address sequence (structural equality of the
embedded book). -/
theorem c1_save_load_roundtrip (fs : FileSystem) (book : AddressBook)
    (path : String) (_hne : book ≠ []) :
    load_data (save_data fs book path) path = some book := by
  simp [load_data, save_data, fsRead_fsWrite, decBook_enc]

/-- Witness for C1: a concrete one-record book round-trips through
`save_data` / `load_data`. -/
theorem c1_save_load_roundtrip_witness :
    load_data
      (save_data []
        [("Ann", ⟨"Ann", [⟨"0123456789"⟩], some ⟨1990, 1, 5⟩, some ["Kyiv"]⟩)]
        "addressbook.pkl") "addressbook.pkl" =
      some [("Ann", ⟨"Ann", [⟨"0123456789"⟩], some ⟨1990, 1, 5⟩, some ["Kyiv"]⟩)] :=
  c1_save_load_roundtrip []
    [("Ann", ⟨"Ann", [⟨"0123456789"⟩], some ⟨1990, 1, 5⟩, some ["Kyiv"]⟩)]
    "addressbook.pkl" (by decide)

/-- C7: when the file at `path` does not exist, `load_data` returns a freshly
empty `AddressBook` rather than raising an error. -/
theorem c7_load_missing_file (fs : FileSystem) (path : String)
    (h : fsRead fs path = none) :
    load_data fs path = some [] := by
  simp [load_data, h]

/-- Witness for C7: loading from an empty file system yields the empty book. -/
theorem c7_load_missing_file_witness :
    load_data [] "addressbook.pkl" = some [] :=
  c7_load_missing_file [] "addressbook.pkl" rfl

theorem phone_validate_iff (s : String) :
    Phone.validate s = true ↔ (s.length = 10 ∧ s.data.all Char.isDigit = true) := by
  simp only [Phone.validate, pyIsdigit, Bool.and_eq_true, bne_iff_ne, ne_eq,
    beq_iff_eq]
  constructor
  · rintro ⟨⟨_, hd⟩, hl⟩
    exact ⟨hl, hd⟩
  · rintro ⟨hl, hd⟩
    exact ⟨⟨by omega, hd⟩, hl⟩

/-- C4: constructing a `Phone` from `s` succeeds iff `s` is exactly 10
decimal digits, and then stores exactly `s`; otherwise it fails with the
validation error; `update_number` obeys the same rule. -/
theorem c4_phone_ten_digits (s : String) :
    ((s.length = 10 ∧ s.data.all Char.isDigit = true) → phoneInit s = .ok ⟨s⟩) ∧
    (¬ (s.length = 10 ∧ s.data.all Char.isDigit = true) →
      phoneInit s =
        .error (.valueError "Phone number must contain exactly 10 digits.")) ∧
    (∀ p : Phone, (s.length = 10 ∧ s.data.all Char.isDigit = true) →
      p.update_number s = .ok ⟨s⟩) ∧
    (∀ p : Phone, ¬ (s.length = 10 ∧ s.data.all Char.isDigit = true) →
      p.update_number s =
        .error (.valueError "Phone number must contain exactly 10 digits.")) := by
  have hv := phone_validate_iff s
  have hF : ¬ (s.length = 10 ∧ s.data.all Char.isDigit = true) →
      Phone.validate s = false := by
    intro h
    cases hb : Phone.validate s
    · rfl
    · exact absurd (hv.mp hb) h
  refine ⟨fun h => ?_, fun h => ?_, fun p h => ?_, fun p h => ?_⟩
  · simp [phoneInit, hv.mpr h]
  · simp [phoneInit, hF h]
  · simp [Phone.update_number, hv.mpr h]
  · simp [Phone.update_number, hF h]

/-- Witness for C4: a valid 10-digit string is accepted and stored unchanged;
a malformed string is rejected, both at construction and at update. -/
theorem c4_phone_ten_digits_witness :
    phoneInit "0123456789" = .ok ⟨"0123456789"⟩ ∧
    phoneInit "12a" =
      .error (.valueError "Phone number must contain exactly 10 digits.") ∧
    Phone.update_number ⟨"0000000000"⟩ "9876543210" = .ok ⟨"9876543210"⟩ ∧
    Phone.update_number ⟨"0000000000"⟩ "123" =
      .error (.valueError "Phone number must contain exactly 10 digits.") :=
  ⟨(c4_phone_ten_digits "0123456789").1 (by decide),
   (c4_phone_ten_digits "12a").2.1 (by decide),
   (c4_phone_ten_digits "9876543210").2.2.1 ⟨"0000000000"⟩ (by decide),
   (c4_phone_ten_digits "123").2.2.2 ⟨"0000000000"⟩ (by decide)⟩

/-- C6: `add_birthday` on a record whose birthday is already set fails with
`ValueError("Birthday already set.")` whatever the new value is (leaving the
record unchanged); on a record with no birthday it validates the string and
sets it. -/
theorem c6_birthday_set_once (r : Record) (s : String) :
    (∀ b, r.birthday = some b →
      r.add_birthday s = .error (.valueError "Birthday already set.")) ∧
    (r.birthday = none →
      r.add_birthday s =
        match parseDMY s.data with
        | some d => .ok { r with birthday := some d }
        | none => .error (.valueError "Invalid date format. Use DD.MM.YYYY")) := by
  constructor
  · intro b hb
    simp [Record.add_birthday, hb]
  · intro h
    cases hp : parseDMY s.data with
    | none => simp [Record.add_birthday, h, birthdayInit, hp]
    | some d => simp [Record.add_birthday, h, birthdayInit, hp]

/-- Witness for C6: a second `add_birthday` fails with the state error and a
first `add_birthday` on a fresh record validates and sets the date. -/
theorem c6_birthday_set_once_witness :
    Record.add_birthday ⟨"Ann", [], some ⟨1990, 1, 5⟩, none⟩ "31.12.2000" =
      .error (.valueError "Birthday already set.") ∧
    Record.add_birthday ⟨"Bob", [], none, none⟩ "05.01.1990" =
      .ok ⟨"Bob", [], some ⟨1990, 1, 5⟩, none⟩ :=
  ⟨(c6_birthday_set_once ⟨"Ann", [], some ⟨1990, 1, 5⟩, none⟩ "31.12.2000").1
      ⟨1990, 1, 5⟩ rfl,
   by rw [(c6_birthday_set_once ⟨"Bob", [], none, none⟩ "05.01.1990").2 rfl]
      rfl⟩

/-- C2: a record with a birthday is reported by the loop body of
`get_upcoming_birthdays` if and only if the re-anchored candidate — the
birthday's month/day on `today`'s year, bumped to the next year when strictly
before `today` — satisfies `today ≤ candidate ≤ today + 7 days` (both ends
inclusive).  The two `validDate` hypotheses say the re-anchoring
`date.replace` calls succeed (cf. C9 for when they do not). -/
theorem c2_window (today b : Date) (r : Record)
    (hb : r.birthday = some b)
    (h1 : validDate ⟨today.year, b.month, b.day⟩ = true)
    (h2 : validDate ⟨today.year + 1, b.month, b.day⟩ = true) :
    (∃ line, processRecord today (addDays today 7) r = .ok (some line)) ↔
      (dateLeB today (anchorCandidate today b) &&
        dateLeB (anchorCandidate today b) (addDays today 7)) = true := by
  have hr1 : replaceYear b today.year = some ⟨today.year, b.month, b.day⟩ := by
    simp [replaceYear, h1]
  have hr2 : replaceYear b (today.year + 1) =
      some ⟨today.year + 1, b.month, b.day⟩ := by
    simp [replaceYear, h2]
  by_cases hlt : dateLtB ⟨today.year, b.month, b.day⟩ today = true
  · have hca : anchorCandidate today b = ⟨today.year + 1, b.month, b.day⟩ := by
      simp [anchorCandidate, hlt]
    rw [hca]
    by_cases hw : (dateLeB today ⟨today.year + 1, b.month, b.day⟩ &&
        dateLeB ⟨today.year + 1, b.month, b.day⟩ (addDays today 7)) = true
    · simp [processRecord, hb, hr1, hr2, hlt, hw]
    · simp [processRecord, hb, hr1, hr2, hlt, hw]
  · have hca : anchorCandidate today b = ⟨today.year, b.month, b.day⟩ := by
      simp [anchorCandidate, hlt]
    rw [hca]
    by_cases hw : (dateLeB today ⟨today.year, b.month, b.day⟩ &&
        dateLeB ⟨today.year, b.month, b.day⟩ (addDays today 7)) = true
    · simp [processRecord, hb, hr1, hlt, hw]
    · simp [processRecord, hb, hr1, hlt, hw]

/-- Witness for C2 at `today = 2024-06-10`: a birthday re-anchoring to
2024-06-17 (exactly 7 days out) is reported; one re-anchoring to 2024-06-18
(exactly 8 days out) is not; a passed birthday (Jan 1) re-anchored to
2025-01-01 is not. -/
theorem c2_window_witness :
    (∃ line, processRecord ⟨2024, 6, 10⟩ (addDays ⟨2024, 6, 10⟩ 7)
        ⟨"Seven", [], some ⟨1990, 6, 17⟩, none⟩ = .ok (some line)) ∧
    ¬ (∃ line, processRecord ⟨2024, 6, 10⟩ (addDays ⟨2024, 6, 10⟩ 7)
        ⟨"Eight", [], some ⟨1990, 6, 18⟩, none⟩ = .ok (some line)) ∧
    ¬ (∃ line, processRecord ⟨2024, 6, 10⟩ (addDays ⟨2024, 6, 10⟩ 7)
        ⟨"NewYear", [], some ⟨1990, 1, 1⟩, none⟩ = .ok (some line)) :=
  ⟨(c2_window ⟨2024, 6, 10⟩ ⟨1990, 6, 17⟩
      ⟨"Seven", [], some ⟨1990, 6, 17⟩, none⟩ rfl (by decide) (by decide)).mpr
      (by decide),
   fun h => absurd
     ((c2_window ⟨2024, 6, 10⟩ ⟨1990, 6, 18⟩
        ⟨"Eight", [], some ⟨1990, 6, 18⟩, none⟩ rfl (by decide) (by decide)).mp h)
     (by decide),
   fun h => absurd
     ((c2_window ⟨2024, 6, 10⟩ ⟨1990, 1, 1⟩
        ⟨"NewYear", [], some ⟨1990, 1, 1⟩, none⟩ rfl (by decide) (by decide)).mp h)
     (by decide)⟩

theorem shift_eq_specShift (c : Date) :
    (if 5 ≤ weekday c then addDays c (7 - weekday c) else c) = specShift c := by
  have h7 : weekday c < 7 := Nat.mod_lt _ (by norm_num)
  unfold specShift
  by_cases h5 : weekday c = 5
  · simp [h5]
  · by_cases h6 : weekday c = 6
    · simp [h6]
    · have hn : ¬ 5 ≤ weekday c := by omega
      simp [hn, h5, h6]

/-- C3: for a qualifying candidate inside the window, the loop body emits
exactly one line, of the form `"{shifted date as YYYY-MM-DD}: {name}"`, where
a Saturday candidate is shifted forward 2 days, a Sunday candidate 1 day, and
a weekday candidate is unshifted. -/
theorem c3_weekend_shift (today b : Date) (r : Record)
    (hb : r.birthday = some b)
    (h1 : validDate ⟨today.year, b.month, b.day⟩ = true)
    (h2 : validDate ⟨today.year + 1, b.month, b.day⟩ = true)
    (hlo : dateLeB today (anchorCandidate today b) = true)
    (hhi : dateLeB (anchorCandidate today b) (addDays today 7) = true) :
    processRecord today (addDays today 7) r =
      .ok (some (fmtYMD (specShift (anchorCandidate today b)) ++ ": " ++ r.name)) := by
  have hr1 : replaceYear b today.year = some ⟨today.year, b.month, b.day⟩ := by
    simp [replaceYear, h1]
  have hr2 : replaceYear b (today.year + 1) =
      some ⟨today.year + 1, b.month, b.day⟩ := by
    simp [replaceYear, h2]
  by_cases hlt : dateLtB ⟨today.year, b.month, b.day⟩ today = true
  · have hca : anchorCandidate today b = ⟨today.year + 1, b.month, b.day⟩ := by
      simp [anchorCandidate, hlt]
    rw [hca] at hlo hhi ⊢
    simp [processRecord, hb, hr1, hr2, hlt, hlo, hhi, shift_eq_specShift]
  · have hca : anchorCandidate today b = ⟨today.year, b.month, b.day⟩ := by
      simp [anchorCandidate, hlt]
    rw [hca] at hlo hhi ⊢
    simp [processRecord, hb, hr1, hlt, hlo, hhi, shift_eq_specShift]

/-- Witness for C3 (the spec's own example): `today = 2024-06-10`, a birthday
re-anchoring to Saturday 2024-06-15 is reported on the following Monday as
`"2024-06-17: Emma"`. -/
theorem c3_weekend_shift_witness :
    processRecord ⟨2024, 6, 10⟩ (addDays ⟨2024, 6, 10⟩ 7)
        ⟨"Emma", [], some ⟨1985, 6, 15⟩, none⟩ =
      .ok (some "2024-06-17: Emma") := by
  rw [c3_weekend_shift ⟨2024, 6, 10⟩ ⟨1985, 6, 15⟩
    ⟨"Emma", [], some ⟨1985, 6, 15⟩, none⟩ rfl (by decide) (by decide)
    (by decide) (by decide)]
  rfl

/-- C9: a record whose birthday is Feb 29, with a non-leap re-anchoring year,
makes the date-replacement step fail: `date.replace(year=2025)` raises
`ValueError("day is out of range for month")` and `get_upcoming_birthdays`
propagates it instead of resolving the candidate to a valid date.  Feb 29
1996 is a valid birthday, 2025 is not a leap year, and the call errors. -/
theorem c9_feb29_replace_fails :
    validDate ⟨1996, 2, 29⟩ = true ∧
    isLeap 2025 = false ∧
    get_upcoming_birthdays [("Leap", ⟨"Leap", [], some ⟨1996, 2, 29⟩, none⟩)]
        ⟨2025, 6, 10⟩ =
      .error (.valueError "day is out of range for month") :=
  ⟨by decide, by decide, rfl⟩

/-- C8 counterexample: for an existing contact whose record never had an
address added (no `addresses` attribute), `change_address` and
`remove_address` both report the unrelated missing-contact error
"Contact not found." instead of a not-found/no-op result. -/
theorem c8_no_attr_counterexample :
    bookFind [("Alice", ⟨"Alice", [], none, none⟩)] "Alice" =
      some ⟨"Alice", [], none, none⟩ ∧
    change_address ["Alice", "old st", "new st"]
        [("Alice", ⟨"Alice", [], none, none⟩)] =
      ("Contact not found.", [("Alice", ⟨"Alice", [], none, none⟩)]) ∧
    remove_address ["Alice", "old st"]
        [("Alice", ⟨"Alice", [], none, none⟩)] =
      ("Contact not found.", [("Alice", ⟨"Alice", [], none, none⟩)]) :=
  ⟨rfl, rfl, rfl⟩

theorem filter_ne_self (l : List String) (a : String) (h : a ∉ l) :
    l.filter (fun x => x ≠ a) = l := by
  induction l with
  | nil => rfl
  | cons b t ih =>
    simp only [List.mem_cons, not_or] at h
    have hba : b ≠ a := fun hba => h.1 hba.symm
    rw [List.filter_cons, if_pos (by simpa using hba), ih h.2]

theorem setKey_find_self (book : AddressBook) (name : String) (r : Record)
    (h : bookFind book name = some r) : setKey book name r = book := by
  induction book with
  | nil => simp [bookFind] at h
  | cons kv rest ih =>
    obtain ⟨k, v⟩ := kv
    by_cases hk : k = name
    · simp [bookFind, hk] at h
      simp [setKey, hk, h]
    · simp [bookFind, hk] at h
      simp [setKey, hk, ih h]

theorem bookFind_setKey (book : AddressBook) (name : String) (r : Record) :
    bookFind (setKey book name r) name = some r := by
  induction book with
  | nil => simp [setKey, bookFind]
  | cons kv rest ih =>
    obtain ⟨k, v⟩ := kv
    by_cases hk : k = name
    · simp [setKey, bookFind, hk]
    · simp [setKey, bookFind, hk, ih]

/-- C8 amended: for an existing contact whose record carries an `addresses`
attribute (even an empty one), `change_address` on a missing old value
returns "Old address not found." without mutating the book, and
`remove_address` of an absent value is a no-op reporting "Address removed.";
but when the record has no `addresses` attribute at all (no address was ever
added), both handlers report the missing-contact error "Contact not
found.". -/
theorem c8_amended (book : AddressBook) (name old new addr : String)
    (r : Record) (hf : bookFind book name = some r) :
    (r.addresses = none →
      change_address [name, old, new] book = ("Contact not found.", book) ∧
      remove_address [name, addr] book = ("Contact not found.", book)) ∧
    (∀ l, r.addresses = some l → old ∉ l →
      change_address [name, old, new] book = ("Old address not found.", book)) ∧
    (∀ l, r.addresses = some l → addr ∉ l →
      remove_address [name, addr] book = ("Address removed.", book)) := by
  refine ⟨fun hn => ?_, fun l hl hm => ?_, fun l hl hm => ?_⟩
  · constructor
    · simp [change_address, hf, hn, input_error]
    · simp [remove_address, hf, hn, input_error]
  · simp [change_address, hf, hl, hm]
  · have hfilter : l.filter (fun a => a ≠ addr) = l := filter_ne_self l addr hm
    have hrec : ({ r with addresses := some l } : Record) = r := by
      obtain ⟨n, p, bd, ad⟩ := r
      simp only at hl
      rw [show ad = some l from hl]
    simp only [remove_address, hf, hl, hfilter, hrec,
      setKey_find_self book name r hf]

/-- Witness for C8 (amended): the attribute-absent record yields "Contact not
found."; a record with an address list not containing the target yields the
not-found / no-op behaviour. -/
theorem c8_amended_witness :
    change_address ["Alice", "x", "y"] [("Alice", ⟨"Alice", [], none, none⟩)] =
      ("Contact not found.", [("Alice", ⟨"Alice", [], none, none⟩)]) ∧
    change_address ["Bob", "x", "y"]
        [("Bob", ⟨"Bob", [], none, some ["Kyiv"]⟩)] =
      ("Old address not found.", [("Bob", ⟨"Bob", [], none, some ["Kyiv"]⟩)]) ∧
    remove_address ["Bob", "x"] [("Bob", ⟨"Bob", [], none, some ["Kyiv"]⟩)] =
      ("Address removed.", [("Bob", ⟨"Bob", [], none, some ["Kyiv"]⟩)]) :=
  ⟨((c8_amended [("Alice", ⟨"Alice", [], none, none⟩)] "Alice" "x" "y" "x"
      ⟨"Alice", [], none, none⟩ rfl).1 rfl).1,
   (c8_amended [("Bob", ⟨"Bob", [], none, some ["Kyiv"]⟩)] "Bob" "x" "y" "x"
      ⟨"Bob", [], none, some ["Kyiv"]⟩ rfl).2.1 ["Kyiv"] rfl (by decide),
   (c8_amended [("Bob", ⟨"Bob", [], none, some ["Kyiv"]⟩)] "Bob" "x" "y" "x"
      ⟨"Bob", [], none, some ["Kyiv"]⟩ rfl).2.2 ["Kyiv"] rfl (by decide)⟩

/-- C10 counterexample, refuting the claim at two inputs its quantifiers
cover: with the empty phone string — not exactly 10 digits — `if phone:` is
falsy, so `add_contact` returns "Contact added." instead of the
phone-validation error (while still inserting the record); and with the empty
name, `Record(name)` raises `ValueError("Invalid name.")` before anything is
inserted, so `add_contact` returns "Invalid name." and no record is
inserted. -/
theorem c10_counterexample :
    Phone.validate "" = false ∧
    add_contact ["Bob", ""] [] =
      ("Contact added.", [("Bob", ⟨"Bob", [], none, none⟩)]) ∧
    Phone.validate "123" = false ∧
    add_contact ["", "123"] [] = ("Invalid name.", []) :=
  ⟨by decide, rfl, by decide, rfl⟩

/-- C10 amended: for a NON-EMPTY name not in the book and a NON-EMPTY phone
string that is not exactly 10 digits, `add_contact` returns the
phone-validation error message, yet the newly created record (with an empty
phone list) remains inserted in the book: the insertion is not rolled back. -/
theorem c10_amended (name phone : String) (book : AddressBook)
    (hname : name ≠ "") (hf : bookFind book name = none) (hne : phone ≠ "")
    (hv : Phone.validate phone = false) :
    add_contact [name, phone] book =
      ("Phone number must contain exactly 10 digits.",
        setKey book name ⟨name, [], none, none⟩) ∧
    bookFind (setKey book name ⟨name, [], none, none⟩) name =
      some ⟨name, [], none, none⟩ := by
  constructor
  · simp [add_contact, hf, recordInit, nameInit, hname, hne, phoneInit, hv,
      input_error, add_record]
  · exact bookFind_setKey book name ⟨name, [], none, none⟩

/-- Witness for C10 (amended): adding "Carol" with phone "123" returns the
validation error while "Carol" is left inserted with no phones. -/
theorem c10_amended_witness :
    add_contact ["Carol", "123"] [] =
      ("Phone number must contain exactly 10 digits.",
        [("Carol", ⟨"Carol", [], none, none⟩)]) ∧
    bookFind [("Carol", ⟨"Carol", [], none, none⟩)] "Carol" =
      some ⟨"Carol", [], none, none⟩ :=
  c10_amended "Carol" "123" [] (by decide) rfl (by decide) (by decide)

/-! ## Structure of `splitDots`, for the birthday-format claims -/

theorem splitDots_ne_nil (cs : List Char) : splitDots cs ≠ [] := by
  cases cs with
  | nil => simp [splitDots]
  | cons c cs =>
    simp only [splitDots]
    by_cases h : c = '.'
    · simp [h]
    · simp only [h, if_false]
      cases hs : splitDots cs <;> simp

theorem splitDots_one (cs : List Char) (a : List Char)
    (h : splitDots cs = [a]) : cs = a := by
  induction cs generalizing a with
  | nil =>
    simp only [splitDots, List.cons.injEq] at h
    rw [← h.1]
  | cons c cs ih =>
    by_cases hc : c = '.'
    · simp [splitDots, hc] at h
      exact absurd h.2 (splitDots_ne_nil cs)
    · simp only [splitDots, hc, if_false] at h
      cases hs : splitDots cs with
      | nil => exact absurd hs (splitDots_ne_nil cs)
      | cons p ps =>
        rw [hs] at h
        simp only [List.cons.injEq] at h
        obtain ⟨ha, hps⟩ := h
        have hcs : splitDots cs = [p] := by rw [hs, hps]
        rw [← ha, ih p hcs]

theorem splitDots_two (cs : List Char) (a b : List Char)
    (h : splitDots cs = [a, b]) : cs = a ++ '.' :: b := by
  induction cs generalizing a with
  | nil => simp [splitDots] at h
  | cons c cs ih =>
    by_cases hc : c = '.'
    · simp only [splitDots, hc, if_true, List.cons.injEq] at h
      obtain ⟨ha, hb⟩ := h
      rw [← ha, hc, splitDots_one cs b hb]
      rfl
    · simp only [splitDots, hc, if_false] at h
      cases hs : splitDots cs with
      | nil => exact absurd hs (splitDots_ne_nil cs)
      | cons p ps =>
        rw [hs] at h
        simp only [List.cons.injEq] at h
        obtain ⟨ha, hps⟩ := h
        have : splitDots cs = [p, b] := by rw [hs, hps]
        rw [← ha, ih p this]
        rfl

theorem splitDots_three (cs : List Char) (a b c : List Char)
    (h : splitDots cs = [a, b, c]) : cs = a ++ '.' :: (b ++ '.' :: c) := by
  induction cs generalizing a with
  | nil => simp [splitDots] at h
  | cons ch cs ih =>
    by_cases hc : ch = '.'
    · simp only [splitDots, hc, if_true, List.cons.injEq] at h
      obtain ⟨ha, hrest⟩ := h
      rw [← ha, hc, splitDots_two cs b c hrest]
      rfl
    · simp only [splitDots, hc, if_false] at h
      cases hs : splitDots cs with
      | nil => exact absurd hs (splitDots_ne_nil cs)
      | cons p ps =>
        rw [hs] at h
        simp only [List.cons.injEq] at h
        obtain ⟨ha, hps⟩ := h
        have : splitDots cs = [p, b, c] := by rw [hs, hps]
        rw [← ha, ih p this]
        rfl

theorem splitDots_nodot (a : List Char) (h : '.' ∉ a) : splitDots a = [a] := by
  induction a with
  | nil => rfl
  | cons c t ih =>
    simp only [List.mem_cons, not_or] at h
    have hc : ¬ c = '.' := fun e => h.1 e.symm
    simp [splitDots, hc, ih h.2]

theorem splitDots_append (a rest : List Char) (h : '.' ∉ a) :
    splitDots (a ++ '.' :: rest) = a :: splitDots rest := by
  induction a with
  | nil => simp [splitDots]
  | cons c t ih =>
    simp only [List.mem_cons, not_or] at h
    have hc : ¬ c = '.' := fun e => h.1 e.symm
    have ht : splitDots (List.append t ('.' :: rest)) = t :: splitDots rest :=
      ih h.2
    simp only [List.cons_append, splitDots, hc, if_false, ht]

/-! ## Digit-character and padding lemmas -/

theorem digitChar_isDigit (k : Nat) (h : k < 10) :
    (digitChar k).isDigit = true := by
  interval_cases k <;> decide

theorem digitVal_digitChar (k : Nat) (h : k < 10) :
    digitVal (digitChar k) = k := by
  interval_cases k <;> decide

theorem digitChar_ne_dot (k : Nat) (h : k < 10) : digitChar k ≠ '.' := by
  interval_cases k <;> decide

theorem pad2_nodot (n : Nat) : '.' ∉ (pad2 n).data := by
  simp only [pad2, List.mem_cons, not_or]
  refine ⟨?_, ?_, by simp⟩
  · exact fun e => digitChar_ne_dot _ (Nat.mod_lt _ (by norm_num)) e.symm
  · exact fun e => digitChar_ne_dot _ (Nat.mod_lt _ (by norm_num)) e.symm

theorem pad4_nodot (n : Nat) : '.' ∉ (pad4 n).data := by
  simp only [pad4, List.mem_cons, not_or]
  refine ⟨?_, ?_, ?_, ?_, by simp⟩ <;>
    exact fun e => digitChar_ne_dot _ (Nat.mod_lt _ (by norm_num)) e.symm

theorem charsToNat_pad2 (n : Nat) (h : n < 100) :
    charsToNat (pad2 n).data = n := by
  show charsToNat [digitChar (n / 10 % 10), digitChar (n % 10)] = n
  simp only [charsToNat, List.foldl,
    digitVal_digitChar _ (Nat.mod_lt _ (by norm_num))]
  omega

theorem charsToNat_pad4 (n : Nat) (h : n < 10000) :
    charsToNat (pad4 n).data = n := by
  show charsToNat [digitChar (n / 1000 % 10), digitChar (n / 100 % 10),
    digitChar (n / 10 % 10), digitChar (n % 10)] = n
  simp only [charsToNat, List.foldl,
    digitVal_digitChar _ (Nat.mod_lt _ (by norm_num))]
  omega

theorem pad2_allDigits (n : Nat) : allDigits (pad2 n).data = true := by
  simp [allDigits, pad2, digitChar_isDigit _ (Nat.mod_lt _ (by norm_num))]

theorem pad4_allDigits (n : Nat) : allDigits (pad4 n).data = true := by
  simp [allDigits, pad4, digitChar_isDigit _ (Nat.mod_lt _ (by norm_num))]

theorem daysInMonth_le_31 (y m : Nat) : daysInMonth y m ≤ 31 := by
  simp only [daysInMonth]
  split_ifs <;> omega

theorem validDate_iff (d : Date) :
    validDate d = true ↔
      (1 ≤ d.year ∧ d.year ≤ 9999 ∧ 1 ≤ d.month ∧ d.month ≤ 12 ∧
        1 ≤ d.day ∧ d.day ≤ daysInMonth d.year d.month) := by
  simp only [validDate, Bool.and_eq_true, decide_eq_true_eq]
  tauto

/-- Re-rendering a valid date with `date_str` and parsing it back with the
`Birthday` parser recovers the same date: `strftime('%d.%m.%Y')` output is in
the accepted language of `strptime('%d.%m.%Y')`. -/
theorem parse_dateStr (dt : Date) (hv : validDate dt = true) :
    parseDMY (dateStr dt).data = some dt := by
  obtain ⟨hy1, hy2, hm1, hm2, hd1, hd2⟩ := (validDate_iff dt).mp hv
  have hd31 : dt.day ≤ 31 := le_trans hd2 (daysInMonth_le_31 _ _)
  have hdata : (dateStr dt).data =
      (pad2 dt.day).data ++ '.' ::
        ((pad2 dt.month).data ++ '.' :: (pad4 dt.year).data) := by
    show (pad2 dt.day ++ "." ++ pad2 dt.month ++ "." ++ pad4 dt.year).data = _
    simp [String.data_append]
  have hlen2d : (pad2 dt.day).data.length = 2 := rfl
  have hlen2m : (pad2 dt.month).data.length = 2 := rfl
  have hlen4 : (pad4 dt.year).data.length = 4 := rfl
  have hc1 : charsToNat (pad2 dt.day).data = dt.day :=
    charsToNat_pad2 _ (by omega)
  have hc2 : charsToNat (pad2 dt.month).data = dt.month :=
    charsToNat_pad2 _ (by omega)
  have hc3 : charsToNat (pad4 dt.year).data = dt.year :=
    charsToNat_pad4 _ (by omega)
  have hday : dayField (pad2 dt.day).data = true := by
    simp only [dayField, pad2_allDigits, hlen2d, hc1, Bool.and_eq_true,
      Bool.or_eq_true, beq_iff_eq, Nat.ble_eq, Bool.true_and]
    simp [hd1, hd31]
  have hmonth : monthField (pad2 dt.month).data = true := by
    simp only [monthField, pad2_allDigits, hlen2m, hc2, Bool.and_eq_true,
      Bool.or_eq_true, beq_iff_eq, Nat.ble_eq, Bool.true_and]
    simp [hm1, hm2]
  have hyear : yearField (pad4 dt.year).data = true := by
    simp [yearField, pad4_allDigits, hlen4]
  simp only [parseDMY]
  rw [hdata, splitDots_append _ _ (pad2_nodot dt.day),
    splitDots_append _ _ (pad2_nodot dt.month),
    splitDots_nodot _ (pad4_nodot dt.year)]
  simp [hday, hmonth, hyear, hc1, hc2, hc3, hv]

/-- C5 counterexample: the claim requires zero-padded two-digit day and month,
but `strptime('%d.%m.%Y')` accepts unpadded one-digit fields: `"1.1.2000"`
does not match the claimed format yet `Birthday("1.1.2000")` succeeds. -/
theorem c5_padding_counterexample :
    birthdayInit "1.1.2000" = .ok ⟨2000, 1, 1⟩ ∧
    specPaddedDMY "1.1.2000".data = false :=
  ⟨rfl, rfl⟩

/-- C5 amended: constructing a `Birthday` from `s` succeeds only when `s` is
`day.month.year` with a one- or two-digit day (zero-padding optional), a one-
or two-digit month (zero-padding optional), a four-digit year, all decimal
digits, denoting a valid calendar date; the stored value is that date, and
re-rendering it with `date_str` gives the zero-padded `DD.MM.YYYY` form,
which parses back to the same date. -/
theorem c5_amended (s : String) (dt : Date) (h : birthdayInit s = .ok dt) :
    (∃ ds ms ys, s.data = ds ++ '.' :: (ms ++ '.' :: ys) ∧
      allDigits ds = true ∧ 1 ≤ ds.length ∧ ds.length ≤ 2 ∧
      allDigits ms = true ∧ 1 ≤ ms.length ∧ ms.length ≤ 2 ∧
      allDigits ys = true ∧ ys.length = 4 ∧
      dt = ⟨charsToNat ys, charsToNat ms, charsToNat ds⟩ ∧
      validDate dt = true) ∧
    birthdayInit (dateStr dt) = .ok dt := by
  have hp : parseDMY s.data = some dt := by
    unfold birthdayInit at h
    cases hq : parseDMY s.data with
    | none => rw [hq] at h; cases h
    | some d =>
      rw [hq] at h
      simp only [Except.ok.injEq] at h
      rw [h]
  simp only [parseDMY] at hp
  rcases hsp : splitDots s.data with _ | ⟨ds, _ | ⟨ms, _ | ⟨ys, _ | ⟨e4, r4⟩⟩⟩⟩ <;>
    rw [hsp] at hp
  case nil => simp at hp
  case cons.nil => simp at hp
  case cons.cons.nil => simp at hp
  case cons.cons.cons.cons => simp at hp
  case cons.cons.cons.nil =>
    simp only [] at hp
    by_cases hflds : (dayField ds && monthField ms && yearField ys) = true
    · rw [if_pos hflds] at hp
      by_cases hvd : validDate ⟨charsToNat ys, charsToNat ms, charsToNat ds⟩ = true
      · rw [if_pos hvd] at hp
        simp only [Option.some.injEq] at hp
        simp only [Bool.and_eq_true] at hflds
        obtain ⟨⟨hday, hmon⟩, hyr⟩ := hflds
        simp only [dayField, Bool.and_eq_true, Bool.or_eq_true, beq_iff_eq,
          Nat.ble_eq] at hday
        simp only [monthField, Bool.and_eq_true, Bool.or_eq_true, beq_iff_eq,
          Nat.ble_eq] at hmon
        simp only [yearField, Bool.and_eq_true, beq_iff_eq] at hyr
        have hdt : dt = ⟨charsToNat ys, charsToNat ms, charsToNat ds⟩ := hp.symm
        have hvdt : validDate dt = true := by rw [hdt]; exact hvd
        refine ⟨⟨ds, ms, ys, splitDots_three _ _ _ _ hsp,
          hday.1.1.1, ?_, ?_, hmon.1.1.1, ?_, ?_, hyr.1, hyr.2,
          hdt, hvdt⟩, ?_⟩
        · rcases hday.1.1.2 with h1 | h2 <;> omega
        · rcases hday.1.1.2 with h1 | h2 <;> omega
        · rcases hmon.1.1.2 with h1 | h2 <;> omega
        · rcases hmon.1.1.2 with h1 | h2 <;> omega
        · unfold birthdayInit
          rw [parse_dateStr dt hvdt]
      · rw [if_neg hvd] at hp
        cases hp
    · rw [if_neg hflds] at hp
      cases hp

/-- Witness for C5 (amended): `"5.1.1990"` parses (unpadded fields), stores
January 5 1990, and the re-rendered `date_str` form parses back to the same
date. -/
theorem c5_amended_witness :
    birthdayInit (dateStr ⟨1990, 1, 5⟩) = .ok ⟨1990, 1, 5⟩ :=
  (c5_amended "5.1.1990" ⟨1990, 1, 5⟩ rfl).2

end AssistantBot
